import Mathlib

/-!
Verification of the encoder-decoder transformer in `transformer.py`.

The tensor programs are embedded shallowly:

* Tensors are curried functions out of `Fin`-indexed axes into `ℚ`.
  Token batches are functions into `ℕ`.
* `torch.softmax` subtracts the row maximum and exponentiates; the float32
  exponential is kept abstract as a `FloatExp` structure whose fields record
  the facts the proofs use: it is nonnegative, positive at `0`, and underflows
  to exactly `0` at and below a negative threshold `T` (for IEEE float32,
  `T` is about `-104`).  The irrational scaling constant
  `embed_size ** (1/2)` is represented by a parameter `sqrtE` whose square is
  pinned to the embedding size by a hypothesis where the claim needs it.
* Shape semantics (element-count checks of `reshape`, index-sharing checks of
  `einsum`, broadcasting of `masked_fill`, bound checks of embedding lookups)
  are modelled by shape-level functions in `Except TorchError`, mirroring the
  source line by line.
-/

/-- Abstract model of the float32 exponential used by `torch.softmax`.
`e` is the exponential, `T` a negative underflow threshold: every argument
at or below `T` is mapped to exactly `0` (float32 underflow), `e` is
nonnegative everywhere and positive at `0`. -/
structure FloatExp where
  e : ℚ → ℚ
  T : ℚ
  T_neg : T < 0
  nonneg : ∀ x : ℚ, 0 ≤ e x
  pos_zero : 0 < e 0
  underflow : ∀ x : ℚ, x ≤ T → e x = 0

/-- Concrete instance of `FloatExp` used to evaluate witnesses: a step
function with the float32-like underflow threshold `-104`. -/
def toyExp : FloatExp where
  e := fun x => if x ≤ -104 then 0 else 1
  T := -104
  T_neg := by norm_num
  nonneg := by
    intro x
    dsimp only
    split <;> norm_num
  pos_zero := by norm_num
  underflow := by
    intro x hx
    simp [hx]

/-- Maximum of a nonempty row, as subtracted by `torch.softmax` before
exponentiating. -/
def keyMax {K : ℕ} (hK : 0 < K) (x : Fin K → ℚ) : ℚ :=
  Finset.univ.sup' (Finset.univ_nonempty_iff.mpr ⟨⟨0, hK⟩⟩) x

/-- Model of `torch.softmax(x, dim)` along one (nonempty) axis:
`softmax(x)_i = e (x_i - max x) / ∑ j, e (x_j - max x)`, with the row
maximum subtracted exactly as the library implementation does. -/
def softmaxKey (e : ℚ → ℚ) {K : ℕ} (hK : 0 < K) (x : Fin K → ℚ) : Fin K → ℚ :=
  fun i => e (x i - keyMax hK x) / ∑ j, e (x j - keyMax hK x)

/-! ### Value-level embedding of `SelfAttention` (transformer.py lines 4-39) -/

/-- Index of position `(h, d)` of a head-split axis inside the flat embedding
axis of size `H * D`: `reshape(N, len, heads, head_dim)` maps flat index
`h * D + d` to `(h, d)`. -/
def splitIdx {H D : ℕ} (h : Fin H) (d : Fin D) : Fin (H * D) :=
  ⟨h.1 * D + d.1, by
    have hd := d.2
    have hh := h.2
    have h1 : h.1 * D + d.1 < (h.1 + 1) * D := by
      have := Nat.add_lt_add_left hd (h.1 * D)
      simpa [Nat.succ_mul] using this
    exact lt_of_lt_of_le h1 (Nat.mul_le_mul_right D hh)⟩

/-- Learned parameters of one `SelfAttention` module (lines 13-16): the
per-head `values`/`keys`/`queries` projection matrices (`nn.Linear(head_dim,
head_dim, bias=False)`) and the output projection `fc_out =
nn.Linear(heads*head_dim, embed_size)` with its bias. -/
structure SAParams (H D E : ℕ) where
  values : Fin D → Fin D → ℚ
  keys : Fin D → Fin D → ℚ
  queries : Fin D → Fin D → ℚ
  fc_out : Fin E → Fin (H * D) → ℚ
  fc_out_bias : Fin E → ℚ

/-- Lines 23-25: `x.reshape(N, len, self.heads, self.head_dim)` viewed as a
reindexing of the flat embedding axis. -/
def reshapeHeads {N L H D : ℕ} (x : Fin N → Fin L → Fin (H * D) → ℚ) :
    Fin N → Fin L → Fin H → Fin D → ℚ :=
  fun n l h d => x n l (splitIdx h d)

/-- Lines 27-29: an `nn.Linear(D, D, bias=False)` applied to the last axis of
a head-split tensor: `y_d = ∑ j, W d j * x_j`. -/
def headLinear {N L H D : ℕ} (W : Fin D → Fin D → ℚ)
    (x : Fin N → Fin L → Fin H → Fin D → ℚ) :
    Fin N → Fin L → Fin H → Fin D → ℚ :=
  fun n l h d => ∑ j, W d j * x n l h j

/-- Line 31: `energy = torch.einsum("nqhd, nkhd -> nhqk", [queries, keys])`
applied to the projected, head-split queries and keys. -/
def SelfAttention.energy {N H D E Lk Lq : ℕ} (P : SAParams H D E)
    (keys : Fin N → Fin Lk → Fin (H * D) → ℚ)
    (queries : Fin N → Fin Lq → Fin (H * D) → ℚ) :
    Fin N → Fin H → Fin Lq → Fin Lk → ℚ :=
  fun n h q k =>
    ∑ d, headLinear P.queries (reshapeHeads queries) n q h d *
      headLinear P.keys (reshapeHeads keys) n k h d

/-- Lines 36-37: `if mask is not None: energy = energy.masked_fill(mask == 0,
float("-1e20"))` — every position whose mask entry is `0` is overwritten with
the finite sentinel `-10^20`. -/
def maskedFill {N H Q K : ℕ}
    (mask : Option (Fin N → Fin H → Fin Q → Fin K → ℚ))
    (energy : Fin N → Fin H → Fin Q → Fin K → ℚ) :
    Fin N → Fin H → Fin Q → Fin K → ℚ :=
  match mask with
  | none => energy
  | some m => fun n h q k =>
      if m n h q k = 0 then -(10 ^ 20 : ℚ) else energy n h q k

/-- Line 39: `attention = torch.softmax(energy / (self.embed_size**(1/2)),
dim=3)`.  `sqrtE` stands for the float `self.embed_size ** (1/2)`; theorems
that depend on its value pin it by the hypothesis
`sqrtE * sqrtE = embed_size`. -/
def SelfAttention.attention (F : FloatExp) (sqrtE : ℚ) {N H D E Lk Lq : ℕ}
    (P : SAParams H D E)
    (keys : Fin N → Fin Lk → Fin (H * D) → ℚ)
    (queries : Fin N → Fin Lq → Fin (H * D) → ℚ)
    (mask : Option (Fin N → Fin H → Fin Lq → Fin Lk → ℚ))
    (hK : 0 < Lk) :
    Fin N → Fin H → Fin Lq → Fin Lk → ℚ :=
  fun n h q =>
    softmaxKey F.e hK
      (fun k => maskedFill mask (SelfAttention.energy P keys queries) n h q k / sqrtE)

/-! ### Mask builders (transformer.py lines 195-203) -/

/-- The all-ones square matrix `torch.ones((L, L))` of line 202. -/
def onesMat (L : ℕ) : Fin L → Fin L → ℚ := fun _ _ => 1

/-- Lower-triangular part `torch.tril`, keeping entries on and below the
diagonal and zeroing the rest. -/
def tril {L : ℕ} (A : Fin L → Fin L → ℚ) : Fin L → Fin L → ℚ :=
  fun i j => if j.1 ≤ i.1 then A i j else 0

/-- Lines 195-198: `src_mask = (src != self.src_pad_idx).unsqueeze(1)
.unsqueeze(2)`, a boolean tensor of shape `(N, 1, 1, src_len)` holding `1`
exactly where the source token differs from the padding index. -/
def Transformer.make_src_mask (src_pad_idx : ℕ) {N L : ℕ}
    (src : Fin N → Fin L → ℕ) : Fin N → Fin 1 → Fin 1 → Fin L → ℚ :=
  fun n _ _ k => if src n k ≠ src_pad_idx then 1 else 0

/-- Lines 200-203: `trg_mask = torch.tril(torch.ones((trg_len,
trg_len))).expand(N, 1, trg_len, trg_len)`.  The method receives the target
batch (and the module owns `self.trg_pad_idx`), but the source consults only
the shape of `trg`, so both appear as arguments that the body ignores. -/
def Transformer.make_trg_mask (trg_pad_idx : ℕ) {N L : ℕ}
    (trg : Fin N → Fin L → ℕ) : Fin N → Fin 1 → Fin L → Fin L → ℚ :=
  fun _ _ q k => tril (onesMat L) q k

/-- Broadcasting of a `(N, 1, Q, K)` mask over the `heads` axis, as
`masked_fill` does when the target mask meets the `(N, H, Q, K)` scores. -/
def expandMaskH {N H Q K : ℕ} (m : Fin N → Fin 1 → Fin Q → Fin K → ℚ) :
    Fin N → Fin H → Fin Q → Fin K → ℚ :=
  fun n _ q k => m n 0 q k

/-- Broadcasting of a `(N, 1, 1, K)` mask over the `heads` and `query` axes,
as `masked_fill` does when the source mask meets the `(N, H, Q, K)` scores. -/
def expandMaskHQ {N H Q K : ℕ} (m : Fin N → Fin 1 → Fin 1 → Fin K → ℚ) :
    Fin N → Fin H → Fin Q → Fin K → ℚ :=
  fun n _ _ k => m n 0 0 k

/-! ### Construction-time check (transformer.py lines 5-11) -/

/-- Errors of the design's taxonomy that the embedded code can raise:
`configurationError` models the construction-time assertion of line 11,
`shapeError` the shape failures of the tensor primitives, `rangeError` the
bound checks of the embedding lookups. -/
inductive TorchError where
  | configurationError
  | shapeError
  | rangeError
deriving DecidableEq

/-- Fields stored by `SelfAttention.__init__` (lines 5-11). -/
structure SelfAttentionCfg where
  embed_size : ℕ
  heads : ℕ
  head_dim : ℕ
deriving DecidableEq

/-- Lines 5-11: `head_dim = embed_size // heads` followed by
`assert (self.head_dim * self.heads == self.embed_size)`; a failing assertion
aborts construction (the spec's `ConfigurationError`). -/
def SelfAttention.init (embed_size heads : ℕ) :
    Except TorchError SelfAttentionCfg :=
  let head_dim := embed_size / heads
  if head_dim * heads = embed_size then
    .ok ⟨embed_size, heads, head_dim⟩
  else
    .error .configurationError

/-! ### Shape-level embedding of the full pipeline

Shapes are tuples of axis sizes; each function returns `Except TorchError`
and mirrors, in source order, the points where the tensor primitives of
`transformer.py` check shapes: `reshape` requires equal element counts,
`masked_fill` requires the mask to broadcast to the score shape, the second
`einsum` of `SelfAttention.forward` shares the index `l` between the
attention weights and the values, elementwise residual additions broadcast,
`nn.LayerNorm(E)` and `nn.Linear(I, O)` require the expected last axis, and
the embedding lookups require in-range indices. -/

/-- Right-aligned broadcast test of a rank-4 shape against a target. -/
def broadcastsTo4 (m t : ℕ × ℕ × ℕ × ℕ) : Bool :=
  (m.1 == t.1 || m.1 == 1) && (m.2.1 == t.2.1 || m.2.1 == 1) &&
    (m.2.2.1 == t.2.2.1 || m.2.2.1 == 1) && (m.2.2.2 == t.2.2.2 || m.2.2.2 == 1)

/-- Broadcast test for an optional `masked_fill` mask (line 36's
`if mask is not None`). -/
def maskBroadcastOK (mask : Option (ℕ × ℕ × ℕ × ℕ)) (t : ℕ × ℕ × ℕ × ℕ) :
    Bool :=
  match mask with
  | none => true
  | some ms => broadcastsTo4 ms t

/-- Shape semantics of `SelfAttention.forward` (lines 18-48).  Writing
`N = qs.1`, `value_len = vs.2.1`, `key_len = ks.2.1`, `query_len = qs.2.1`
and `head_dim = embed_size // heads` as the source does: the three `reshape`
calls of lines 23-25 need the element counts to match, `masked_fill` (line
37) needs the mask to broadcast to the `(N, heads, query_len, key_len)`
scores, and the `einsum` of line 41 shares its index `l` between the
`(N, heads, query_len, key_len)` weights and the `(N, value_len, heads,
head_dim)` values, so `key_len` must equal `value_len`; the output after
`fc_out` (line 47) is `(N, query_len, embed_size)`. -/
def SelfAttention.forwardShape (embed_size heads : ℕ) (vs ks qs : ℕ × ℕ × ℕ)
    (mask : Option (ℕ × ℕ × ℕ × ℕ)) : Except TorchError (ℕ × ℕ × ℕ) :=
  if vs.1 * vs.2.1 * vs.2.2 = qs.1 * vs.2.1 * heads * (embed_size / heads) then
    if ks.1 * ks.2.1 * ks.2.2 = qs.1 * ks.2.1 * heads * (embed_size / heads) then
      if qs.1 * qs.2.1 * qs.2.2 = qs.1 * qs.2.1 * heads * (embed_size / heads) then
        if maskBroadcastOK mask (qs.1, heads, qs.2.1, ks.2.1) then
          if ks.2.1 = vs.2.1 then
            .ok (qs.1, qs.2.1, embed_size)
          else .error .shapeError
        else .error .shapeError
      else .error .shapeError
    else .error .shapeError
  else .error .shapeError

/-- Shape of the result of broadcasting an elementwise binary operation
(the residual additions of lines 67, 69 and 117) over two rank-3 tensors. -/
def broadcastBinOp3 (a b : ℕ × ℕ × ℕ) : Except TorchError (ℕ × ℕ × ℕ) :=
  if a = b then .ok a
  else if a.1 = b.1 ∨ a.1 = 1 ∨ b.1 = 1 then
    if a.2.1 = b.2.1 ∨ a.2.1 = 1 ∨ b.2.1 = 1 then
      if a.2.2 = b.2.2 ∨ a.2.2 = 1 ∨ b.2.2 = 1 then
        .ok (max a.1 b.1, max a.2.1 b.2.1, max a.2.2 b.2.2)
      else .error .shapeError
    else .error .shapeError
  else .error .shapeError

/-- Shape semantics of `nn.LayerNorm(normalized)`: the last axis must be the
normalized one; the shape is preserved. -/
def layerNormShape (normalized : ℕ) (s : ℕ × ℕ × ℕ) :
    Except TorchError (ℕ × ℕ × ℕ) :=
  if s.2.2 = normalized then .ok s else .error .shapeError

/-- Shape semantics of `nn.Linear(inF, outF)` on a rank-3 input. -/
def linearShape (inF outF : ℕ) (s : ℕ × ℕ × ℕ) :
    Except TorchError (ℕ × ℕ × ℕ) :=
  if s.2.2 = inF then .ok (s.1, s.2.1, outF) else .error .shapeError

/-- Shape semantics of `TransformerBlock.forward` (lines 64-70): attention,
residual + `norm1`, the expand-then-project feed-forward, residual +
`norm2`; `nn.Dropout` and `nn.ReLU` preserve shapes. -/
def TransformerBlock.forwardShape (embed_size heads forward_expansion : ℕ)
    (vs ks qs : ℕ × ℕ × ℕ) (mask : Option (ℕ × ℕ × ℕ × ℕ)) :
    Except TorchError (ℕ × ℕ × ℕ) := do
  let a ← SelfAttention.forwardShape embed_size heads vs ks qs mask
  let r1 ← broadcastBinOp3 a qs
  let x ← layerNormShape embed_size r1
  let f1 ← linearShape embed_size (forward_expansion * embed_size) x
  let f2 ← linearShape (forward_expansion * embed_size) embed_size f1
  let r2 ← broadcastBinOp3 f2 x
  layerNormShape embed_size r2

/-- Iteration of the identical layers of a `nn.ModuleList` stack
(lines 103-104 and 150-151). -/
def layersFold (f : ℕ × ℕ × ℕ → Except TorchError (ℕ × ℕ × ℕ)) :
    ℕ → ℕ × ℕ × ℕ → Except TorchError (ℕ × ℕ × ℕ)
  | 0, s => .ok s
  | n + 1, s => (f s).bind (layersFold f n)

/-- Hyperparameters of `Transformer.__init__` (lines 157-168), minus the
stochastic-regularization rate and the device, which do not affect shapes. -/
structure TransformerCfg where
  src_vocab_size : ℕ
  trg_vocab_size : ℕ
  src_pad_idx : ℕ
  trg_pad_idx : ℕ
  embed_size : ℕ
  num_layers : ℕ
  forward_expansion : ℕ
  heads : ℕ
  max_length : ℕ
deriving DecidableEq

/-- Shape semantics of `Encoder.forward` (lines 97-105): the two embedding
lookups bound-check the token indices and the position range, then the stack
of `TransformerBlock`s is applied with `values = keys = queries = out`. -/
def Encoder.forwardShape (cfg : TransformerCfg) {N L : ℕ}
    (x : Fin N → Fin L → ℕ) (mask : ℕ × ℕ × ℕ × ℕ) :
    Except TorchError (ℕ × ℕ × ℕ) :=
  if ∀ n l, x n l < cfg.src_vocab_size then
    if L ≤ cfg.max_length then
      layersFold
        (fun s => TransformerBlock.forwardShape cfg.embed_size cfg.heads
          cfg.forward_expansion s s s (some mask))
        cfg.num_layers (N, L, cfg.embed_size)
    else .error .rangeError
  else .error .rangeError

/-- Shape semantics of `DecoderBLock.forward` (lines 115-119): masked
self-attention with the target mask, residual + `norm`, then the
`TransformerBlock` doing cross-attention against the encoder output with the
source mask. -/
def DecoderBLock.forwardShape (embed_size heads forward_expansion : ℕ)
    (xs vs ks : ℕ × ℕ × ℕ) (srcMask trgMask : ℕ × ℕ × ℕ × ℕ) :
    Except TorchError (ℕ × ℕ × ℕ) := do
  let a ← SelfAttention.forwardShape embed_size heads xs xs xs (some trgMask)
  let r ← broadcastBinOp3 a xs
  let q ← layerNormShape embed_size r
  TransformerBlock.forwardShape embed_size heads forward_expansion vs ks q
    (some srcMask)

/-- Shape semantics of `Decoder.forward` (lines 145-154): embedding bound
checks, the stack of `DecoderBLock`s against the encoder output, and the
final `fc_out = nn.Linear(embed_size, trg_vocab_size)` projection — the last
operation before returning. -/
def Decoder.forwardShape (cfg : TransformerCfg) {N L : ℕ}
    (x : Fin N → Fin L → ℕ) (enc_out : ℕ × ℕ × ℕ)
    (srcMask trgMask : ℕ × ℕ × ℕ × ℕ) : Except TorchError (ℕ × ℕ × ℕ) :=
  if ∀ n l, x n l < cfg.trg_vocab_size then
    if L ≤ cfg.max_length then
      (layersFold
        (fun s => DecoderBLock.forwardShape cfg.embed_size cfg.heads
          cfg.forward_expansion s enc_out enc_out srcMask trgMask)
        cfg.num_layers (N, L, cfg.embed_size)).bind
        (linearShape cfg.embed_size cfg.trg_vocab_size)
    else .error .rangeError
  else .error .rangeError

/-- Shape semantics of `Transformer.forward` (lines 205-210): build the
`(N, 1, 1, src_len)` source mask and the `(N, 1, trg_len, trg_len)` target
mask, run the encoder, then the decoder. -/
def Transformer.forwardShape (cfg : TransformerCfg) {N Ls Lt : ℕ}
    (src : Fin N → Fin Ls → ℕ) (trg : Fin N → Fin Lt → ℕ) :
    Except TorchError (ℕ × ℕ × ℕ) :=
  (Encoder.forwardShape cfg src (N, 1, 1, Ls)).bind fun enc =>
    Decoder.forwardShape cfg trg enc (N, 1, 1, Ls) (N, 1, Lt, Lt)

/-! ### Value-level final projection of the decoder (lines 142 and 153) -/

/-- An `nn.Linear(I, O)` with bias on the last axis: `y_o = ∑ i, W o i * x_i
+ b_o`. -/
def linearMap {I O : ℕ} (W : Fin O → Fin I → ℚ) (b : Fin O → ℚ)
    (x : Fin I → ℚ) : Fin O → ℚ :=
  fun o => (∑ i, W o i * x i) + b o

/-- Line 153: `out = self.fc_out(x)` — the value returned by
`Decoder.forward` is exactly the affine projection of the last hidden state;
no activation or softmax follows it. -/
def Decoder.fc_out {N L E V : ℕ} (W : Fin V → Fin E → ℚ) (b : Fin V → ℚ)
    (x : Fin N → Fin L → Fin E → ℚ) : Fin N → Fin L → Fin V → ℚ :=
  fun n l => linearMap W b (x n l)

/-! ### Concrete fixtures used by the end-to-end scenario and the witnesses -/

/-- Hyperparameters of the `__main__` scenario (lines 212-228): vocabularies
of size 10, padding index 0 and the constructor defaults `embed_size = 256`,
`num_layers = 6`, `forward_expansion = 4`, `heads = 8`, `max_length = 100`. -/
def scenarioCfg : TransformerCfg :=
  ⟨10, 10, 0, 0, 256, 6, 4, 8, 100⟩

/-- The source batch `x` of line 216. -/
def srcBatch : Fin 2 → Fin 9 → ℕ :=
  ![![1, 5, 6, 4, 3, 9, 5, 2, 0], ![1, 8, 7, 3, 4, 5, 6, 7, 2]]

/-- The shifted target batch `trg[:, :-1]` of lines 219 and 228. -/
def trgBatch : Fin 2 → Fin 7 → ℕ :=
  ![![1, 7, 4, 3, 5, 9, 2], ![1, 5, 6, 2, 4, 7, 6]]

/-- All-ones parameters of a one-head, one-dimensional attention module. -/
def oneP : SAParams 1 1 1 :=
  ⟨fun _ _ => 1, fun _ _ => 1, fun _ _ => 1, fun _ _ => 1, fun _ => 0⟩

/-- All-ones parameters of a four-head, one-dimensional attention module. -/
def fourP : SAParams 4 1 1 :=
  ⟨fun _ _ => 1, fun _ _ => 1, fun _ _ => 1, fun _ _ => 1, fun _ => 0⟩

/-- A constant two-position key/value-side input. -/
def keysW : Fin 1 → Fin 2 → Fin (1 * 1) → ℚ := fun _ _ _ => 1

/-- A constant one-position query-side input. -/
def queriesW : Fin 1 → Fin 1 → Fin (1 * 1) → ℚ := fun _ _ _ => 1

/-- A constant two-position key/value-side input for four heads. -/
def keys4 : Fin 1 → Fin 2 → Fin (4 * 1) → ℚ := fun _ _ _ => 1

/-- A constant one-position query-side input for four heads. -/
def queries4 : Fin 1 → Fin 1 → Fin (4 * 1) → ℚ := fun _ _ _ => 1

/-- A target batch made of padding tokens only. -/
def trgW : Fin 1 → Fin 2 → ℕ := ![![0, 0]]

/-- A target batch with no padding token. -/
def trgW2 : Fin 1 → Fin 2 → ℕ := ![![5, 7]]

/-- A source batch whose first position is padding. -/
def srcW : Fin 1 → Fin 2 → ℕ := ![![0, 1]]

/-- A mask forbidding every key of its single query row. -/
def zeroMask : Fin 1 → Fin 1 → Fin 1 → Fin 2 → ℚ := fun _ _ _ _ => 0

/-- A mask forbidding exactly the first of two keys. -/
def idemMask : Fin 1 → Fin 1 → Fin 1 → Fin 2 → ℚ :=
  fun _ _ _ k => if k = 0 then 0 else 1

/-- A constant score tensor. -/
def enW : Fin 1 → Fin 1 → Fin 1 → Fin 2 → ℚ := fun _ _ _ _ => 1

/-- A tiny output-projection weight matrix with one negative row. -/
def logitsW : Fin 2 → Fin 1 → ℚ := ![![-3], ![2]]

/-- A tiny constant hidden state. -/
def logitsX : Fin 1 → Fin 1 → Fin 1 → ℚ := fun _ _ _ => 1

/-! ### General lemmas about the softmax model -/

lemma le_keyMax {K : ℕ} (hK : 0 < K) (x : Fin K → ℚ) (i : Fin K) :
    x i ≤ keyMax hK x :=
  Finset.le_sup' x (Finset.mem_univ i)

lemma exists_keyMax {K : ℕ} (hK : 0 < K) (x : Fin K → ℚ) :
    ∃ i, keyMax hK x = x i := by
  obtain ⟨b, _, hb⟩ :=
    Finset.exists_mem_eq_sup' (Finset.univ_nonempty_iff.mpr ⟨⟨0, hK⟩⟩) x
  exact ⟨b, hb⟩

lemma softmaxKey_denom_pos (F : FloatExp) {K : ℕ} (hK : 0 < K) (x : Fin K → ℚ) :
    0 < ∑ j, F.e (x j - keyMax hK x) := by
  obtain ⟨j, hj⟩ := exists_keyMax hK x
  have h1 : F.e (x j - keyMax hK x) ≤ ∑ i, F.e (x i - keyMax hK x) :=
    Finset.single_le_sum (fun i _ => F.nonneg _) (Finset.mem_univ j)
  have h2 : F.e (x j - keyMax hK x) = F.e 0 := by rw [hj, sub_self]
  calc (0 : ℚ) < F.e 0 := F.pos_zero
    _ = F.e (x j - keyMax hK x) := h2.symm
    _ ≤ _ := h1

lemma softmaxKey_sum_one (F : FloatExp) {K : ℕ} (hK : 0 < K) (x : Fin K → ℚ) :
    ∑ i, softmaxKey F.e hK x i = 1 := by
  unfold softmaxKey
  rw [← Finset.sum_div, div_self (ne_of_gt (softmaxKey_denom_pos F hK x))]

lemma softmaxKey_eq_zero (F : FloatExp) {K : ℕ} (hK : 0 < K) (x : Fin K → ℚ)
    (i j : Fin K) (hij : x i - x j ≤ F.T) : softmaxKey F.e hK x i = 0 := by
  have h1 : x i - keyMax hK x ≤ F.T := by
    have := le_keyMax hK x j
    linarith
  unfold softmaxKey
  rw [F.underflow _ h1, zero_div]

lemma softmaxKey_const (F : FloatExp) {K : ℕ} (hK : 0 < K) (c : ℚ) (i : Fin K) :
    softmaxKey F.e hK (fun _ => c) i = 1 / (K : ℚ) := by
  unfold softmaxKey keyMax
  rw [Finset.sup'_const]
  simp only [sub_self]
  rw [Finset.sum_const, Finset.card_univ, Fintype.card_fin, nsmul_eq_mul,
    mul_comm, div_mul_eq_div_div, div_self (ne_of_gt F.pos_zero)]

/-! ### C2 -/

/-- C2: `SelfAttention` construction succeeds exactly when the embed size is
divisible by the head count, and a violating configuration fails during
`__init__` — the assertion of line 11 — with the spec's
`ConfigurationError`; no check is deferred to `forward`. -/
theorem selfAttention_init_divisibility (E H : ℕ) :
    (E % H = 0 → SelfAttention.init E H = .ok ⟨E, H, E / H⟩) ∧
    (E % H ≠ 0 → SelfAttention.init E H = .error .configurationError) := by
  constructor
  · intro h
    have hd : H ∣ E := Nat.dvd_iff_mod_eq_zero.mpr h
    unfold SelfAttention.init
    rw [if_pos (Nat.div_mul_cancel hd)]
  · intro h
    unfold SelfAttention.init
    rw [if_neg]
    intro heq
    apply h
    exact Nat.dvd_iff_mod_eq_zero.mp ⟨E / H, by rw [mul_comm]; exact heq.symm⟩

/-- Witness for C2 at the scenario sizes: `E = 256` with 8 heads constructs,
with 7 heads it fails at construction. -/
theorem selfAttention_init_divisibility_witness :
    SelfAttention.init 256 8 = .ok ⟨256, 8, 32⟩ ∧
    SelfAttention.init 256 7 = .error .configurationError :=
  ⟨(selfAttention_init_divisibility 256 8).1 (by norm_num),
   (selfAttention_init_divisibility 256 7).2 (by norm_num)⟩

/-! ### C10 -/

/-- C10: `make_trg_mask` depends only on the shape of the target batch — any
two batches of the same shape and any two padding indices give the identical
mask — its entries are the lower-triangular ones pattern, and a target
padding position below the diagonal still carries mask value `1`, so it
remains attendable: only causality is enforced, never target padding. -/
theorem trg_mask_shape_only {N L : ℕ} (pi pi' : ℕ)
    (trg trg' : Fin N → Fin L → ℕ) :
    Transformer.make_trg_mask pi trg = Transformer.make_trg_mask pi' trg' ∧
    (∀ (n : Fin N) (i : Fin 1) (q k : Fin L),
      Transformer.make_trg_mask pi trg n i q k =
        if k.1 ≤ q.1 then 1 else 0) ∧
    (∀ (n : Fin N) (i : Fin 1) (q k : Fin L),
      trg n k = pi → k.1 ≤ q.1 → Transformer.make_trg_mask pi trg n i q k = 1) := by
  refine ⟨rfl, ?_, ?_⟩
  · intro n i q k
    simp [Transformer.make_trg_mask, tril, onesMat]
  · intro n i q k _ hkq
    simp [Transformer.make_trg_mask, tril, onesMat, hkq]

/-- Witness for C10: an all-padding batch and a padding-free batch of shape
`1 × 2` produce the same mask, and the padding position `(q, k) = (1, 0)`
is attendable. -/
theorem trg_mask_shape_only_witness :
    Transformer.make_trg_mask 0 trgW = Transformer.make_trg_mask 3 trgW2 ∧
    Transformer.make_trg_mask 0 trgW 0 0 1 0 = 1 :=
  ⟨(trg_mask_shape_only 0 3 trgW trgW2).1,
   (trg_mask_shape_only 0 3 trgW trgW2).2.2 0 0 1 0 (by decide) (by decide)⟩

/-! ### C9 -/

/-- C9: the masking step is idempotent — `masked_fill`ing the scores twice
with the same mask gives the same tensor as doing it once, hence the
attention weights produced by the subsequent scale-and-softmax of line 39
coincide. -/
theorem masking_idempotent (F : FloatExp) (sqrtE : ℚ) {N H Q K : ℕ}
    (hK : 0 < K) (m en : Fin N → Fin H → Fin Q → Fin K → ℚ) :
    maskedFill (some m) (maskedFill (some m) en) = maskedFill (some m) en ∧
    ∀ (n : Fin N) (h : Fin H) (q : Fin Q),
      softmaxKey F.e hK
          (fun k => maskedFill (some m) (maskedFill (some m) en) n h q k / sqrtE) =
        softmaxKey F.e hK (fun k => maskedFill (some m) en n h q k / sqrtE) := by
  have hid : maskedFill (some m) (maskedFill (some m) en) = maskedFill (some m) en := by
    funext n h q k
    by_cases hm : m n h q k = 0 <;> simp [maskedFill, hm]
  exact ⟨hid, fun n h q => by rw [hid]⟩

/-- Witness for C9 on a concrete two-key row with its first key masked. -/
theorem masking_idempotent_witness :
    softmaxKey toyExp.e (Nat.succ_pos 1)
        (fun k => maskedFill (some idemMask) (maskedFill (some idemMask) enW) 0 0 0 k / 1) =
      softmaxKey toyExp.e (Nat.succ_pos 1)
        (fun k => maskedFill (some idemMask) enW 0 0 0 k / 1) :=
  (masking_idempotent toyExp 1 (Nat.succ_pos 1) idemMask enW).2 0 0 0

/-! ### C1 -/

/-- C1: the target mask built by `make_trg_mask` is the lower-triangular
ones matrix broadcast to `(N, 1, trg_len, trg_len)`, and in decoder
self-attention (where `values = keys = queries = x` and the mask is this
matrix broadcast over the heads axis) the attention weight at `(q, k)` is
exactly `0` for every key position `k > q`, for every batch and head.  The
hypothesis `hdiag` says the unmasked diagonal score is of ordinary float
magnitude — at least `-10^20 - T * sqrtE` — which makes the `-10^20`
sentinel underflow to an exact zero weight. -/
theorem decoder_causal_mask_and_future_weights_zero (F : FloatExp)
    (sqrtE : ℚ) (hs : 0 < sqrtE) {N H D E L : ℕ} (P : SAParams H D E)
    (x : Fin N → Fin L → Fin (H * D) → ℚ) (pad : ℕ)
    (trg : Fin N → Fin L → ℕ) (hL : 0 < L)
    (hdiag : ∀ (n : Fin N) (h : Fin H) (q : Fin L),
      -(10 ^ 20 : ℚ) - F.T * sqrtE ≤ SelfAttention.energy P x x n h q q) :
    (∀ (n : Fin N) (i : Fin 1) (q k : Fin L),
      Transformer.make_trg_mask pad trg n i q k =
        if k.1 ≤ q.1 then 1 else 0) ∧
    ∀ (n : Fin N) (h : Fin H) (q k : Fin L), q < k →
      SelfAttention.attention F sqrtE P x x
        (some (expandMaskH (Transformer.make_trg_mask pad trg))) hL n h q k = 0 := by
  constructor
  · intro n i q k
    simp [Transformer.make_trg_mask, tril, onesMat]
  · intro n h q k hqk
    have hmk : expandMaskH (H := H) (Transformer.make_trg_mask pad trg) n h q k = 0 := by
      have : ¬ (k.1 ≤ q.1) := by
        have := hqk
        rw [Fin.lt_def] at this
        omega
      simp [expandMaskH, Transformer.make_trg_mask, tril, onesMat, this]
    have hmq : expandMaskH (H := H) (Transformer.make_trg_mask pad trg) n h q q = 1 := by
      simp [expandMaskH, Transformer.make_trg_mask, tril, onesMat]
    unfold SelfAttention.attention
    apply softmaxKey_eq_zero F hL _ k q
    have hk : maskedFill (some (expandMaskH (Transformer.make_trg_mask pad trg)))
        (SelfAttention.energy P x x) n h q k = -(10 ^ 20 : ℚ) := by
      simp [maskedFill, hmk]
    have hq : maskedFill (some (expandMaskH (Transformer.make_trg_mask pad trg)))
        (SelfAttention.energy P x x) n h q q = SelfAttention.energy P x x n h q q := by
      simp [maskedFill, hmq]
    rw [hk, hq, div_sub_div_same, div_le_iff hs]
    have := hdiag n h q
    linarith

/-- Witness for C1 on a `1 × 2` decoder row with all-ones inputs: the weight
of the future key `k = 1` of query `q = 0` is exactly `0`. -/
theorem decoder_causal_mask_and_future_weights_zero_witness :
    SelfAttention.attention toyExp 1 oneP keysW keysW
      (some (expandMaskH (Transformer.make_trg_mask 0 trgW)))
      (Nat.succ_pos 1) 0 0 0 1 = 0 :=
  (decoder_causal_mask_and_future_weights_zero toyExp 1 (by norm_num) oneP
    keysW 0 trgW (Nat.succ_pos 1) (by
      intro n h q
      have hE : SelfAttention.energy oneP keysW keysW n h q q = 1 := by
        simp [SelfAttention.energy, headLinear, reshapeHeads, oneP, keysW,
          Fin.sum_univ_one]
      rw [hE]
      norm_num [toyExp])).2 0 0 0 1 (by decide)

/-! ### C4 -/

/-- C4: for every input, mask and `(batch, head, query)` triple, the
attention weights of line 39 sum to exactly `1` along the key axis — the
denominator of the max-subtracting softmax always contains the positive
term `e 0`, so even a fully-masked row is normalized (the claim's only
exception). -/
theorem attention_rows_sum_to_one (F : FloatExp) (sqrtE : ℚ)
    {N H D E Lk Lq : ℕ} (P : SAParams H D E)
    (keys : Fin N → Fin Lk → Fin (H * D) → ℚ)
    (queries : Fin N → Fin Lq → Fin (H * D) → ℚ)
    (mask : Option (Fin N → Fin H → Fin Lq → Fin Lk → ℚ)) (hK : 0 < Lk) :
    ∀ (n : Fin N) (h : Fin H) (q : Fin Lq),
      ∑ k, SelfAttention.attention F sqrtE P keys queries mask hK n h q k = 1 := by
  intro n h q
  unfold SelfAttention.attention
  exact softmaxKey_sum_one F hK _

/-- Witness for C4 on a concrete two-key unmasked row. -/
theorem attention_rows_sum_to_one_witness :
    ∑ k, SelfAttention.attention toyExp 1 oneP keysW queriesW none
      (Nat.succ_pos 1) 0 0 0 k = 1 :=
  attention_rows_sum_to_one toyExp 1 oneP keysW queriesW none
    (Nat.succ_pos 1) 0 0 0

/-! ### C5 -/

/-- C5: `masked_fill` replaces every score whose mask entry is `0` by the
finite sentinel `-10^20` (not a literal `-inf`) before the softmax, and for
a source position flagged as padding, the corresponding column of the
cross-attention weights built from `make_src_mask` is exactly `0` for every
query, provided the row has some non-padding key of ordinary float
magnitude. -/
theorem mask_sentinel_and_padding_column_zero (F : FloatExp) (sqrtE : ℚ)
    (hs : 0 < sqrtE) {N H D E Ls Lq : ℕ} (P : SAParams H D E)
    (keys : Fin N → Fin Ls → Fin (H * D) → ℚ)
    (queries : Fin N → Fin Lq → Fin (H * D) → ℚ)
    (pad : ℕ) (src : Fin N → Fin Ls → ℕ) (hK : 0 < Ls) :
    (∀ {N' H' Q' K' : ℕ} (m en : Fin N' → Fin H' → Fin Q' → Fin K' → ℚ)
        (n : Fin N') (h : Fin H') (q : Fin Q') (k : Fin K'),
      m n h q k = 0 → maskedFill (some m) en n h q k = -(10 ^ 20 : ℚ)) ∧
    ∀ (n : Fin N) (h : Fin H) (q : Fin Lq) (k : Fin Ls),
      src n k = pad →
      (∃ k₀ : Fin Ls, src n k₀ ≠ pad ∧
        -(10 ^ 20 : ℚ) - F.T * sqrtE ≤ SelfAttention.energy P keys queries n h q k₀) →
      SelfAttention.attention F sqrtE P keys queries
        (some (expandMaskHQ (Transformer.make_src_mask pad src))) hK n h q k = 0 := by
  constructor
  · intro N' H' Q' K' m en n h q k hm
    simp [maskedFill, hm]
  · intro n h q k hpad hk0
    obtain ⟨k₀, hk₀ne, hk₀E⟩ := hk0
    have hmk : expandMaskHQ (H := H) (Q := Lq) (Transformer.make_src_mask pad src) n h q k = 0 := by
      simp [expandMaskHQ, Transformer.make_src_mask, hpad]
    have hmq : expandMaskHQ (H := H) (Q := Lq) (Transformer.make_src_mask pad src) n h q k₀ = 1 := by
      simp [expandMaskHQ, Transformer.make_src_mask, hk₀ne]
    unfold SelfAttention.attention
    apply softmaxKey_eq_zero F hK _ k k₀
    have hkv : maskedFill (some (expandMaskHQ (Transformer.make_src_mask pad src)))
        (SelfAttention.energy P keys queries) n h q k = -(10 ^ 20 : ℚ) := by
      simp [maskedFill, hmk]
    have hqv : maskedFill (some (expandMaskHQ (Transformer.make_src_mask pad src)))
        (SelfAttention.energy P keys queries) n h q k₀ =
        SelfAttention.energy P keys queries n h q k₀ := by
      simp [maskedFill, hmq]
    rw [hkv, hqv, div_sub_div_same, div_le_iff hs]
    linarith

/-- Witness for C5: in a two-position source whose first position is the
padding token, the cross-attention weight of that position is `0`. -/
theorem mask_sentinel_and_padding_column_zero_witness :
    SelfAttention.attention toyExp 1 oneP keysW queriesW
      (some (expandMaskHQ (Transformer.make_src_mask 0 srcW)))
      (Nat.succ_pos 1) 0 0 0 0 = 0 :=
  (mask_sentinel_and_padding_column_zero toyExp 1 (by norm_num) oneP keysW
    queriesW 0 srcW (Nat.succ_pos 1)).2 0 0 0 0 (by decide)
    ⟨1, by decide, by
      have hE : SelfAttention.energy oneP keysW queriesW 0 0 0 1 = 1 := by
        simp [SelfAttention.energy, headLinear, reshapeHeads, oneP, keysW,
          queriesW, Fin.sum_univ_one]
      rw [hE]
      norm_num [toyExp]⟩

/-! ### C8 -/

/-- C8 (behaviour at the degenerate input): when a query row is fully
masked, every entry of the row becomes the same sentinel, the
max-subtracting softmax turns it into the exactly uniform distribution
`1 / key_len` — near-uniform rather than undefined.  The source contains no
warning or assertion for this situation; the embedded forward pass has no
warning channel at all, mirroring lines 36-39. -/
theorem fully_masked_row_uniform_weights (F : FloatExp) (sqrtE : ℚ)
    {N H D E Lk Lq : ℕ} (P : SAParams H D E)
    (keys : Fin N → Fin Lk → Fin (H * D) → ℚ)
    (queries : Fin N → Fin Lq → Fin (H * D) → ℚ)
    (m : Fin N → Fin H → Fin Lq → Fin Lk → ℚ) (hK : 0 < Lk)
    (n : Fin N) (h : Fin H) (q : Fin Lq) (hm : ∀ k, m n h q k = 0) :
    ∀ k, SelfAttention.attention F sqrtE P keys queries (some m) hK n h q k =
      1 / (Lk : ℚ) := by
  intro k
  unfold SelfAttention.attention
  have hrow : (fun k' => maskedFill (some m)
      (SelfAttention.energy P keys queries) n h q k' / sqrtE) =
      fun _ => -(10 ^ 20 : ℚ) / sqrtE := by
    funext k'
    simp [maskedFill, hm k']
  rw [hrow]
  exact softmaxKey_const F hK _ k

/-- Witness for C8: an all-zero mask over a two-key row yields the uniform
weight `1/2` at each key. -/
theorem fully_masked_row_uniform_weights_witness :
    SelfAttention.attention toyExp 1 oneP keysW queriesW (some zeroMask)
      (Nat.succ_pos 1) 0 0 0 0 = 1 / ((2 : ℕ) : ℚ) :=
  fully_masked_row_uniform_weights toyExp 1 oneP keysW queriesW zeroMask
    (Nat.succ_pos 1) 0 0 0 (fun _ => rfl) 0

/-! ### C3 -/

/-- C3: the attention weights are the softmax, along the key axis, of the
masked scores divided by the square root of the full embedding size
`embed_size = heads * head_dim` (the constant `sqrtE` with
`sqrtE² = heads * head_dim`), and this constant differs from the square
root of the per-head dimension `embed_size // heads` whenever there is more
than one head. -/
theorem attention_scaled_by_sqrt_embed_size (F : FloatExp)
    {N H D E Lk Lq : ℕ} (P : SAParams H D E)
    (keys : Fin N → Fin Lk → Fin (H * D) → ℚ)
    (queries : Fin N → Fin Lq → Fin (H * D) → ℚ)
    (mask : Option (Fin N → Fin H → Fin Lq → Fin Lk → ℚ)) (hK : 0 < Lk)
    (sqrtE t : ℚ) (hsnn : 0 ≤ sqrtE) (htnn : 0 ≤ t)
    (hsq : sqrtE * sqrtE = ((H * D : ℕ) : ℚ))
    (htq : t * t = ((H * D / H : ℕ) : ℚ))
    (hH : 2 ≤ H) (hD : 0 < D) :
    (∀ (n : Fin N) (h : Fin H) (q : Fin Lq) (k : Fin Lk),
      SelfAttention.attention F sqrtE P keys queries mask hK n h q k =
        softmaxKey F.e hK
          (fun k' => maskedFill mask (SelfAttention.energy P keys queries) n h q k' /
            sqrtE) k) ∧
    sqrtE ≠ t := by
  constructor
  · intro n h q k
    rfl
  · have hHpos : 0 < H := by omega
    have hdiv : H * D / H = D := Nat.mul_div_cancel_left D hHpos
    have hlt : (H * D / H : ℕ) < H * D := by
      rw [hdiv]
      calc D < 2 * D := by omega
        _ ≤ H * D := Nat.mul_le_mul_right D hH
    have hcast : ((H * D / H : ℕ) : ℚ) < ((H * D : ℕ) : ℚ) := by
      exact_mod_cast hlt
    intro heq
    rw [heq, htq] at hsq
    exact absurd hsq (ne_of_lt hcast)

/-- Witness for C3 at `heads = 4`, `head_dim = 1`: the scaling constant is
`√4 = 2`, which is not the per-head `√1 = 1`, and the weight at the single
query of a two-key row equals the spec's softmax formula. -/
theorem attention_scaled_by_sqrt_embed_size_witness :
    (SelfAttention.attention toyExp 2 fourP keys4 queries4 none
        (Nat.succ_pos 1) 0 0 0 0 =
      softmaxKey toyExp.e (Nat.succ_pos 1)
        (fun k' => maskedFill none (SelfAttention.energy fourP keys4 queries4)
          0 0 0 k' / 2) 0) ∧
    (2 : ℚ) ≠ 1 := by
  have h := attention_scaled_by_sqrt_embed_size toyExp fourP keys4 queries4
    none (Nat.succ_pos 1) 2 1 (by norm_num) (by norm_num) (by norm_num)
    (by norm_num) (by norm_num) (by norm_num)
  exact ⟨h.1 0 0 0 0, h.2⟩

/-! ### Shape lemmas for the well-shaped pipeline -/

lemma exceptOkBind {ε α β : Type} (a : α) (f : α → Except ε β) :
    (Except.ok a : Except ε α) >>= f = f a := rfl

lemma sa_shape_ok (E H : ℕ) (hE : E = H * (E / H)) (N l lq : ℕ)
    (mask : Option (ℕ × ℕ × ℕ × ℕ))
    (hm : maskBroadcastOK mask (N, H, lq, l) = true) :
    SelfAttention.forwardShape E H (N, l, E) (N, l, E) (N, lq, E) mask =
      .ok (N, lq, E) := by
  have key : ∀ a : ℕ, a * E = a * H * (E / H) := by
    intro a
    rw [mul_assoc, ← hE]
  simp [SelfAttention.forwardShape, ← key, hm]

lemma block_shape_ok (E H fe : ℕ) (hE : E = H * (E / H)) (N L l : ℕ)
    (mask : Option (ℕ × ℕ × ℕ × ℕ))
    (hm : maskBroadcastOK mask (N, H, L, l) = true) :
    TransformerBlock.forwardShape E H fe (N, l, E) (N, l, E) (N, L, E) mask =
      .ok (N, L, E) := by
  unfold TransformerBlock.forwardShape
  rw [sa_shape_ok E H hE N l L mask hm]
  simp [exceptOkBind, broadcastBinOp3, layerNormShape, linearShape]

lemma layersFold_ok (f : ℕ × ℕ × ℕ → Except TorchError (ℕ × ℕ × ℕ))
    (s : ℕ × ℕ × ℕ) (h : f s = .ok s) :
    ∀ k, layersFold f k s = .ok s := by
  intro k
  induction k with
  | zero => rfl
  | succ k ih =>
    unfold layersFold
    rw [h]
    exact ih

lemma encoder_shape_ok (cfg : TransformerCfg)
    (hE : cfg.embed_size = cfg.heads * (cfg.embed_size / cfg.heads))
    {N L : ℕ} (x : Fin N → Fin L → ℕ)
    (hx : ∀ n l, x n l < cfg.src_vocab_size) (hL : L ≤ cfg.max_length)
    (mask : ℕ × ℕ × ℕ × ℕ)
    (hm : maskBroadcastOK (some mask) (N, cfg.heads, L, L) = true) :
    Encoder.forwardShape cfg x mask = .ok (N, L, cfg.embed_size) := by
  unfold Encoder.forwardShape
  rw [if_pos hx, if_pos hL]
  exact layersFold_ok _ _ (block_shape_ok cfg.embed_size cfg.heads
    cfg.forward_expansion hE N L L (some mask) hm) cfg.num_layers

lemma decoderBLock_shape_ok (E H fe : ℕ) (hE : E = H * (E / H))
    (N Lt Ls : ℕ) (srcMask trgMask : ℕ × ℕ × ℕ × ℕ)
    (hsm : maskBroadcastOK (some srcMask) (N, H, Lt, Ls) = true)
    (htm : maskBroadcastOK (some trgMask) (N, H, Lt, Lt) = true) :
    DecoderBLock.forwardShape E H fe (N, Lt, E) (N, Ls, E) (N, Ls, E)
      srcMask trgMask = .ok (N, Lt, E) := by
  unfold DecoderBLock.forwardShape
  rw [sa_shape_ok E H hE N Lt Lt (some trgMask) htm]
  have hblock := block_shape_ok E H fe hE N Lt Ls (some srcMask) hsm
  simp [exceptOkBind, broadcastBinOp3, layerNormShape, hblock]

lemma decoder_shape_ok (cfg : TransformerCfg)
    (hE : cfg.embed_size = cfg.heads * (cfg.embed_size / cfg.heads))
    {N L : ℕ} (x : Fin N → Fin L → ℕ)
    (hx : ∀ n l, x n l < cfg.trg_vocab_size) (hL : L ≤ cfg.max_length)
    (Ls : ℕ) (srcMask trgMask : ℕ × ℕ × ℕ × ℕ)
    (hsm : maskBroadcastOK (some srcMask) (N, cfg.heads, L, Ls) = true)
    (htm : maskBroadcastOK (some trgMask) (N, cfg.heads, L, L) = true) :
    Decoder.forwardShape cfg x (N, Ls, cfg.embed_size) srcMask trgMask =
      .ok (N, L, cfg.trg_vocab_size) := by
  unfold Decoder.forwardShape
  rw [if_pos hx, if_pos hL,
    layersFold_ok _ _ (decoderBLock_shape_ok cfg.embed_size cfg.heads
      cfg.forward_expansion hE N L Ls srcMask trgMask hsm htm) cfg.num_layers]
  simp [Except.bind, linearShape]

lemma transformer_shape_general (cfg : TransformerCfg)
    (hE : cfg.embed_size = cfg.heads * (cfg.embed_size / cfg.heads))
    {N Ls Lt : ℕ} (src : Fin N → Fin Ls → ℕ) (trg : Fin N → Fin Lt → ℕ)
    (hsrc : ∀ n l, src n l < cfg.src_vocab_size)
    (htrg : ∀ n l, trg n l < cfg.trg_vocab_size)
    (hLs : Ls ≤ cfg.max_length) (hLt : Lt ≤ cfg.max_length) :
    Transformer.forwardShape cfg src trg = .ok (N, Lt, cfg.trg_vocab_size) := by
  unfold Transformer.forwardShape
  rw [encoder_shape_ok cfg hE src hsrc hLs (N, 1, 1, Ls)
    (by simp [maskBroadcastOK, broadcastsTo4])]
  exact decoder_shape_ok cfg hE trg htrg hLt Ls (N, 1, 1, Ls) (N, 1, Lt, Lt)
    (by simp [maskBroadcastOK, broadcastsTo4])
    (by simp [maskBroadcastOK, broadcastsTo4])

/-! ### C7 -/

/-- C7: a call to `SelfAttention.forward` whose value/key/query tensors have
mismatched batch dimensions (the three `reshape`s of lines 23-25 then see
unequal element counts) or incompatible sequence lengths (`value_len ≠
key_len` breaks the shared index `l` of the `einsum` of line 41) fails at
call time with the spec's `ShapeError`. -/
theorem selfAttention_shape_mismatch_error (E H : ℕ)
    (hE : E = H * (E / H)) (hEpos : 0 < E) (Nv Lv Nk Lk N Lq : ℕ)
    (hLv : 0 < Lv) (hLk : 0 < Lk)
    (hmis : Nv ≠ N ∨ Nk ≠ N ∨ Lv ≠ Lk) :
    SelfAttention.forwardShape E H (Nv, Lv, E) (Nk, Lk, E) (N, Lq, E) none =
      .error .shapeError := by
  have key : ∀ a : ℕ, a * H * (E / H) = a * E := by
    intro a
    rw [mul_assoc, ← hE]
  have hcancel : ∀ a b c : ℕ, 0 < c → a * c * E = b * c * E → a = b := by
    intro a b c hc hab
    rw [mul_assoc, mul_assoc] at hab
    exact Nat.eq_of_mul_eq_mul_right (Nat.mul_pos hc hEpos) hab
  unfold SelfAttention.forwardShape
  by_cases h1 : Nv = N
  · subst h1
    rw [if_pos (key (Nv * Lv)).symm]
    by_cases h2 : Nk = Nv
    · subst h2
      rw [if_pos (key (Nk * Lk)).symm, if_pos (key (Nk * Lq)).symm]
      have h3 : Lv ≠ Lk := by
        rcases hmis with h | h | h
        · exact absurd rfl h
        · exact absurd rfl h
        · exact h
      rw [if_pos (by rfl), if_neg (fun hc => h3 hc.symm)]
    · rw [if_neg]
      intro hc
      rw [key] at hc
      exact h2 (hcancel Nk Nv Lk hLk hc)
  · rw [if_neg]
    intro hc
    rw [key] at hc
    exact h1 (hcancel Nv N Lv hLv hc)

/-- Witness for C7: one-head-compatible sizes `E = 4`, `H = 2`, with a value
batch of size 1 against key/query batches of size 2, fail with a shape
error. -/
theorem selfAttention_shape_mismatch_error_witness :
    SelfAttention.forwardShape 4 2 (1, 2, 4) (2, 2, 4) (2, 2, 4) none =
      .error .shapeError :=
  selfAttention_shape_mismatch_error 4 2 (by decide) (by decide) 1 2 2 2 2 2
    (by decide) (by decide) (Or.inl (by decide))

/-! ### C6 -/

/-- C6: for every well-formed configuration and token batches, the
end-to-end `Transformer.forward` shape is `(N, target_len,
trg_vocab_size)` — in particular `(2, 7, 10)` for the `__main__` scenario
(vocabularies 10/10, embed size 256, 6 layers, 8 heads, padding index 0, the
given `2 × 9` source and `2 × 7` shifted target batches) — and the value
returned by the decoder is exactly the affine `fc_out` projection of its
last hidden state: no activation or softmax follows, so the logits are
unnormalized (a concrete instance sums to `-1 ≠ 1` over the vocabulary and
contains a negative entry). -/
theorem transformer_output_shape_and_unnormalized_logits :
    (∀ cfg : TransformerCfg,
      cfg.embed_size = cfg.heads * (cfg.embed_size / cfg.heads) →
      ∀ {N Ls Lt : ℕ} (src : Fin N → Fin Ls → ℕ) (trg : Fin N → Fin Lt → ℕ),
        (∀ n l, src n l < cfg.src_vocab_size) →
        (∀ n l, trg n l < cfg.trg_vocab_size) →
        Ls ≤ cfg.max_length → Lt ≤ cfg.max_length →
        Transformer.forwardShape cfg src trg =
          .ok (N, Lt, cfg.trg_vocab_size)) ∧
    Transformer.forwardShape scenarioCfg srcBatch trgBatch = .ok (2, 7, 10) ∧
    (∀ {N L E V : ℕ} (W : Fin V → Fin E → ℚ) (b : Fin V → ℚ)
        (x : Fin N → Fin L → Fin E → ℚ) (n : Fin N) (l : Fin L) (v : Fin V),
      Decoder.fc_out W b x n l v = (∑ i, W v i * x n l i) + b v) ∧
    (∑ v, Decoder.fc_out logitsW (fun _ => 0) logitsX 0 0 v) ≠ 1 ∧
    Decoder.fc_out logitsW (fun _ => 0) logitsX 0 0 0 < 0 := by
  refine ⟨?_, ?_, ?_, ?_, ?_⟩
  · intro cfg hE N Ls Lt src trg hsrc htrg hLs hLt
    exact transformer_shape_general cfg hE src trg hsrc htrg hLs hLt
  · exact transformer_shape_general scenarioCfg (by decide) srcBatch trgBatch
      (by decide) (by decide) (by decide) (by decide)
  · intro N L E V W b x n l v
    rfl
  · norm_num [Decoder.fc_out, linearMap, logitsW, logitsX, Fin.sum_univ_two,
      Fin.sum_univ_one]
  · norm_num [Decoder.fc_out, linearMap, logitsW, logitsX, Fin.sum_univ_one]

/-- Witness for C6, applying the general shape statement to the `__main__`
scenario. -/
theorem transformer_output_shape_and_unnormalized_logits_witness :
    Transformer.forwardShape scenarioCfg srcBatch trgBatch = .ok (2, 7, 10) :=
  transformer_output_shape_and_unnormalized_logits.1 scenarioCfg (by decide)
    srcBatch trgBatch (by decide) (by decide) (by decide) (by decide)
